import Mathlib

/-!
Verification of the Module API surface of `matrix-react-sdk-module-api`
(`src/lib/ModuleApi.d.ts`, `src/lib/types/translations.d.ts`,
`src/lib/lifecycles/WrapperLifecycle.d.ts`).

The repository ships only TypeScript declaration files, so the behaviour of
each operation is modelled from the specification's contract wording; the
declaration files themselves decide the type-level facts (shape of the
dialog result, the `WrapperOpts` slot, the `Omit` typing of extra props).
State is passed explicitly: each registry operation takes the registry value
and returns the updated one.
-/

/-- A translation payload. `translations.d.ts` keys language tags to a
`Translation` payload from `matrix-web-i18n`; claims here only exercise the
plain-string case, so the payload is modelled as a string. -/
abbrev Translation := String

/-- From `translations.d.ts`: `TranslationStringsObject` maps a translation
key to a mapping from language tag to a translation payload. Object
literals are modelled as association lists in entry order. -/
def TranslationStringsObject := List (String × List (String × Translation))

/-- Modelled from the spec: the Translation Registry is a process-wide store
mapping (translation key, language) pairs to the registered variant, if any
(the implementation of the registry is not part of this repository). -/
def TranslationRegistry := String → String → Option Translation

/-- Modelled from the spec: the registry with no registrations. -/
def emptyRegistry : TranslationRegistry := fun _ _ => none

/-- Modelled from the spec: storing one variant for an exact (key, language)
pair replaces any existing variant for that pair and leaves every other pair
untouched. -/
def setEntry (reg : TranslationRegistry) (key lang : String) (v : Translation) :
    TranslationRegistry :=
  fun k l => if key = k ∧ lang = l then some v else reg k l

/-- Modelled from the spec: apply all language variants supplied for one key,
in entry order (later entries for the same language override earlier ones). -/
def applyLangs (key : String) : List (String × Translation) → TranslationRegistry →
    TranslationRegistry
  | [], reg => reg
  | (lang, v) :: rest, reg => applyLangs key rest (setEntry reg key lang v)

/-- Modelled from the spec: `registerTranslations(table)` merges a
`TranslationStringsObject` into the registry; for each key, for each
language, the newly supplied variant replaces any existing variant for that
exact (key, language) pair, leaving other languages for that key untouched. -/
def registerTranslations : TranslationStringsObject → TranslationRegistry →
    TranslationRegistry
  | [], reg => reg
  | (key, langs) :: rest, reg => registerTranslations rest (applyLangs key langs reg)

/-- The last variant a single table supplies for (k, l) among the variants of
one key's language list (later entries win, matching application order). -/
def langsLookup (key : String) (langs : List (String × Translation)) (k l : String) :
    Option Translation :=
  match langs with
  | [] => none
  | (lang, v) :: rest =>
    match langsLookup key rest k l with
    | some v2 => some v2
    | none => if key = k ∧ lang = l then some v else none

/-- The last variant a single table supplies for (k, l), across all its keys
(later keys win, matching application order). -/
def tableLookup : TranslationStringsObject → String → String → Option Translation
  | [], _, _ => none
  | (key, langs) :: rest, k, l =>
    match tableLookup rest k l with
    | some v => some v
    | none => langsLookup key langs k l

/-- Modelled from the spec: a sequence of `registerTranslations` calls applied
in call order. -/
def applyCalls : List TranslationStringsObject → TranslationRegistry →
    TranslationRegistry
  | [], reg => reg
  | t :: rest, reg => applyCalls rest (registerTranslations t reg)

/-- The value supplied for (k, l) by the last call (in call order) that
supplies that pair, across a sequence of calls. -/
def lastSupplied : List TranslationStringsObject → String → String → Option Translation
  | [], _, _ => none
  | t :: rest, k, l =>
    match lastSupplied rest k l with
    | some v => some v
    | none => tableLookup t k l

theorem applyLangs_lookup (key : String) (langs : List (String × Translation))
    (reg : TranslationRegistry) (k l : String) :
    applyLangs key langs reg k l =
      match langsLookup key langs k l with
      | some v => some v
      | none => reg k l := by
  induction langs generalizing reg with
  | nil => rfl
  | cons hd rest ih =>
    obtain ⟨lang, v⟩ := hd
    simp only [applyLangs, langsLookup, ih (setEntry reg key lang v), setEntry]
    cases langsLookup key rest k l with
    | some v2 => rfl
    | none => by_cases h : key = k ∧ lang = l <;> simp [h]

theorem registerTranslations_lookup (t : TranslationStringsObject)
    (reg : TranslationRegistry) (k l : String) :
    registerTranslations t reg k l =
      match tableLookup t k l with
      | some v => some v
      | none => reg k l := by
  induction t generalizing reg with
  | nil => rfl
  | cons hd rest ih =>
    obtain ⟨key, langs⟩ := hd
    simp only [registerTranslations, tableLookup, ih (applyLangs key langs reg)]
    cases tableLookup rest k l with
    | some v => rfl
    | none => simp [applyLangs_lookup]

/-- Claim C3: across any sequence of `registerTranslations` calls, the final
registry maps each (key, language) pair supplied by at least one call to the
value from the last call (in call order) that supplied that exact pair, and
pairs not re-supplied by later calls are preserved from the prior registry
state — hence calls touching the same key with disjoint languages yield the
union of all supplied pairs. -/
theorem c3_registerTranslations_last_write_wins
    (calls : List TranslationStringsObject) (reg : TranslationRegistry)
    (k l : String) :
    applyCalls calls reg k l =
      match lastSupplied calls k l with
      | some v => some v
      | none => reg k l := by
  induction calls generalizing reg with
  | nil => rfl
  | cons t rest ih =>
    simp only [applyCalls, lastSupplied, ih (registerTranslations t reg)]
    cases lastSupplied rest k l with
    | some v => rfl
    | none => simp [registerTranslations_lookup]

/-- From `translations.d.ts`: `PlainSubstitution = number | string`, a simple
(non-component) replacement value. -/
inductive PlainSubstitution where
  | str (s : String)
  | num (n : Int)
deriving DecidableEq

/-- Modelled from the spec: `String(variables[name])` — a substitution value
rendered as a string. -/
def psToString : PlainSubstitution → String
  | .str s => s
  | .num n => toString n

/-- First-match lookup of a variable name in the `variables` object (object
keys are unique in the source language, so first match is the match). -/
def lookupVar : List (String × PlainSubstitution) → String → Option PlainSubstitution
  | [], _ => none
  | (n, v) :: rest, name => if n = name then some v else lookupVar rest name

/-- Modelled from the spec: immediately after a `%(` marker, scan left to
right for the first `)s`; returns the placeholder name and the remainder
after `)s`, or `none` when no `)s` follows (no placeholder starts here). -/
def extractName : List Char → Option (List Char × List Char)
  | ')' :: 's' :: rest => some ([], rest)
  | c :: rest =>
    match extractName rest with
    | some (n, r) => some (c :: n, r)
    | none => none
  | [] => none

theorem extractName_sound (cs : List Char) :
    ∀ n r, extractName cs = some (n, r) → cs = n ++ ')' :: 's' :: r := by
  induction cs using extractName.induct with
  | case1 rest =>
    intro n r h
    simp only [extractName, Option.some.injEq, Prod.mk.injEq] at h
    obtain ⟨rfl, rfl⟩ := h
    rfl
  | case2 c rest hne n2 r2 hrest ih =>
    intro n r h
    simp only [extractName, hrest, Option.some.injEq, Prod.mk.injEq] at h
    obtain ⟨rfl, rfl⟩ := h
    simp [ih n2 r2 hrest]
  | case3 c rest hne hnone =>
    intro n r h
    simp only [extractName, hnone] at h
    exact Option.noConfusion h
  | case4 =>
    intro n r h
    exact Option.noConfusion h

/-- Modelled from the spec: the single left-to-right substitution pass. Every
occurrence of `%(name)s` whose name is bound in `vars` is replaced by
`String(vars[name])`; a placeholder whose name is unbound is left as literal
text; inserted values are appended verbatim and never re-scanned. The `fuel`
argument bounds the recursion by the input length and never runs out when
initialised to it. -/
def substFuel (vars : List (String × PlainSubstitution)) : Nat → List Char → List Char
  | 0, cs => cs
  | _ + 1, [] => []
  | fuel + 1, '%' :: '(' :: rest =>
    match extractName rest with
    | some (n, r) =>
      match lookupVar vars (String.mk n) with
      | some v => (psToString v).data ++ substFuel vars fuel r
      | none => '%' :: '(' :: (n ++ ')' :: 's' :: substFuel vars fuel r)
    | none => '%' :: '(' :: substFuel vars fuel rest
  | fuel + 1, c :: rest => c :: substFuel vars fuel rest

/-- Modelled from the spec: placeholder substitution over a character list. -/
def substVars (vars : List (String × PlainSubstitution)) (cs : List Char) : List Char :=
  substFuel vars cs.length cs

/-- Modelled from the spec: `translateString(s, variables)` resolves the
variant for `s` in the active UI language, falls back to the host-defined
default language, falls back to the key `s` itself (returned unornamented)
when no variant exists anywhere, and applies placeholder substitution to a
resolved template. The function is total: it never throws. -/
def translateString (reg : TranslationRegistry) (activeLang defaultLang : String)
    (s : String) (vars : Option (List (String × PlainSubstitution))) : String :=
  match reg s activeLang with
  | some t => String.mk (substVars (vars.getD []) t.data)
  | none =>
    match reg s defaultLang with
    | some t => String.mk (substVars (vars.getD []) t.data)
    | none => s

/-- The decomposition of a template into literal characters and placeholder
occurrences, mirroring the substitution pass's scan. -/
inductive SubstTok where
  | lit (c : Char)
  | ph (name : List Char)
deriving DecidableEq

/-- The literal text a token came from. -/
def tokText : SubstTok → List Char
  | .lit c => [c]
  | .ph n => '%' :: '(' :: (n ++ [')', 's'])

/-- What the substitution pass emits for one token: a bound placeholder
becomes its substitution value, an unbound one stays literal. -/
def renderTok (vars : List (String × PlainSubstitution)) : SubstTok → List Char
  | .lit c => [c]
  | .ph n =>
    match lookupVar vars (String.mk n) with
    | some v => (psToString v).data
    | none => '%' :: '(' :: (n ++ [')', 's'])

/-- Tokenizer with the same scan structure and fuel discipline as
`substFuel`. -/
def tokensFuel : Nat → List Char → List SubstTok
  | 0, cs => cs.map .lit
  | _ + 1, [] => []
  | fuel + 1, '%' :: '(' :: rest =>
    match extractName rest with
    | some (n, r) => .ph n :: tokensFuel fuel r
    | none => .lit '%' :: .lit '(' :: tokensFuel fuel rest
  | fuel + 1, c :: rest => .lit c :: tokensFuel fuel rest

/-- The token decomposition of a template. -/
def tokens (cs : List Char) : List SubstTok := tokensFuel cs.length cs

theorem substFuel_eq_render (vars : List (String × PlainSubstitution)) :
    ∀ (fuel : Nat) (cs : List Char),
      substFuel vars fuel cs = ((tokensFuel fuel cs).map (renderTok vars)).flatten := by
  intro fuel cs
  induction fuel, cs using substFuel.induct vars with
  | case1 cs =>
    show cs = ((cs.map SubstTok.lit).map (renderTok vars)).flatten
    induction cs with
    | nil => rfl
    | cons c rest ih =>
      simp only [List.map_cons, List.flatten_cons, renderTok, List.singleton_append]
      rw [← ih]
  | case2 fuel => rfl
  | case3 fuel rest n r hex v hv ih =>
    simp only [substFuel, tokensFuel, hex, hv, List.map_cons, List.flatten_cons, renderTok]
    rw [ih]
  | case4 fuel rest n r hex hv ih =>
    simp only [substFuel, tokensFuel, hex, List.map_cons, List.flatten_cons, renderTok, hv]
    rw [ih]
    simp
  | case5 fuel rest hex ih =>
    simp only [substFuel, tokensFuel, hex, List.map_cons, List.flatten_cons, renderTok]
    rw [ih]
    simp
  | case6 fuel c rest hne ih =>
    simp only [substFuel, tokensFuel, List.map_cons, List.flatten_cons, renderTok]
    rw [ih]
    simp

theorem tokensFuel_text : ∀ (fuel : Nat) (cs : List Char),
    ((tokensFuel fuel cs).map tokText).flatten = cs := by
  intro fuel cs
  induction fuel, cs using tokensFuel.induct with
  | case1 cs =>
    show ((cs.map SubstTok.lit).map tokText).flatten = cs
    induction cs with
    | nil => rfl
    | cons c rest ih =>
      simp only [List.map_cons, List.flatten_cons, tokText, List.singleton_append]
      rw [ih]
  | case2 fuel => rfl
  | case3 fuel rest n r hex ih =>
    simp only [tokensFuel, hex, List.map_cons, List.flatten_cons, tokText]
    rw [ih, extractName_sound rest n r hex]
    simp
  | case4 fuel rest hex ih =>
    simp only [tokensFuel, hex, List.map_cons, List.flatten_cons, tokText]
    rw [ih]
    simp
  | case5 fuel c rest hne ih =>
    simp only [tokensFuel, List.map_cons, List.flatten_cons, tokText]
    rw [ih]
    simp

theorem renderTok_nil (tok : SubstTok) : renderTok [] tok = tokText tok := by
  cases tok <;> rfl

theorem string_mk_data (t : String) : String.mk t.data = t := by
  cases t
  rfl

/-- Claim C4: on a resolved translation template, `translateString` produces
exactly the template's token decomposition rendered left to right — every
`%(name)s` occurrence whose name is bound in the variables map becomes
`String(variables[name])`, every unbound placeholder stays literal text, and
the token decomposition is computed from the template alone (inserted values
are emitted verbatim and never re-scanned), so the pass is a single
left-to-right sweep with no recursive re-substitution. With no variables
argument at all, every placeholder stays literal, i.e. the resolved template
is returned unchanged. -/
theorem c4_translateString_single_pass_substitution
    (reg : TranslationRegistry) (activeLang defaultLang s t : String)
    (vars : List (String × PlainSubstitution))
    (h : reg s activeLang = some t) :
    (translateString reg activeLang defaultLang s (some vars)).data
        = ((tokens t.data).map (renderTok vars)).flatten
      ∧ ((tokens t.data).map tokText).flatten = t.data
      ∧ translateString reg activeLang defaultLang s none = t := by
  refine ⟨?_, tokensFuel_text _ _, ?_⟩
  · simp only [translateString, h, Option.getD, substVars, tokens]
    rw [substFuel_eq_render]
  · simp only [translateString, h, Option.getD, substVars]
    rw [substFuel_eq_render]
    have hmap : (tokensFuel t.data.length t.data).map (renderTok [])
        = (tokensFuel t.data.length t.data).map tokText :=
      List.map_congr_left fun tok _ => renderTok_nil tok
    rw [hmap, tokensFuel_text, string_mk_data]

/-- A concrete registry used by the substitution and fallback witnesses:
only the key "greet" has a variant, in language "en". -/
def exampleReg : TranslationRegistry :=
  fun s l => if s = "greet" ∧ l = "en" then some "hi %(name)s" else none

theorem c4_translateString_single_pass_substitution_witness :
    exampleReg "greet" "en" = some "hi %(name)s"
      ∧ ((translateString exampleReg "en" "fr" "greet"
            (some [("name", PlainSubstitution.str "X")])).data
          = ((tokens ("hi %(name)s" : String).data).map
              (renderTok [("name", PlainSubstitution.str "X")])).flatten
        ∧ ((tokens ("hi %(name)s" : String).data).map tokText).flatten
            = ("hi %(name)s" : String).data
        ∧ translateString exampleReg "en" "fr" "greet" none = "hi %(name)s")
      ∧ translateString exampleReg "en" "fr" "greet"
          (some [("name", PlainSubstitution.str "X")]) = "hi X" :=
  ⟨by decide,
   c4_translateString_single_pass_substitution exampleReg "en" "fr" "greet"
     "hi %(name)s" [("name", PlainSubstitution.str "X")] (by decide),
   by decide⟩

/-- Claim C7: `translateString` is total (it is a Lean function, hence never
throws); when the key has no variant in the active language it falls back to
the host-defined default language's variant, and when no variant exists in
any fallback it returns the key itself, unornamented. -/
theorem c7_translateString_fallback
    (reg : TranslationRegistry) (activeLang defaultLang s : String)
    (vars : Option (List (String × PlainSubstitution)))
    (h1 : reg s activeLang = none) :
    (∀ t, reg s defaultLang = some t →
        translateString reg activeLang defaultLang s vars
          = String.mk (substVars (vars.getD []) t.data))
      ∧ (reg s defaultLang = none →
          translateString reg activeLang defaultLang s vars = s) := by
  constructor
  · intro t h2
    simp [translateString, h1, h2]
  · intro h2
    simp [translateString, h1, h2]

theorem c7_translateString_fallback_witness :
    exampleReg "greet" "de" = none
      ∧ ((∀ t, exampleReg "greet" "en" = some t →
            translateString exampleReg "de" "en" "greet" none
              = String.mk (substVars [] t.data))
        ∧ (exampleReg "greet" "en" = none →
            translateString exampleReg "de" "en" "greet" none = "greet"))
      ∧ exampleReg "missing key" "de" = none
      ∧ ((∀ t, exampleReg "missing key" "fr" = some t →
            translateString exampleReg "de" "fr" "missing key" none
              = String.mk (substVars [] t.data))
        ∧ (exampleReg "missing key" "fr" = none →
            translateString exampleReg "de" "fr" "missing key" none = "missing key")) :=
  ⟨by decide,
   c7_translateString_fallback exampleReg "de" "en" "greet" none (by decide),
   by decide,
   c7_translateString_fallback exampleReg "de" "fr" "missing key" none (by decide)⟩

/-- A value in the host configuration document: a primitive or a nested
object, modelling the arbitrary nested key-value JSON document the host
loads (`ModuleApi.d.ts` documents the layout with a JSON example). -/
inductive ConfigValue where
  | str (s : String)
  | num (n : Int)
  | obj (entries : List (String × ConfigValue))

/-- First-match lookup of a key in a configuration object (JSON object keys
are unique, so first match is the match). -/
def lookupConf : List (String × ConfigValue) → String → Option ConfigValue
  | [], _ => none
  | (k, v) :: rest, key => if k = key then some v else lookupConf rest key

/-- Modelled from the spec: `getConfigValue(namespace, key)` reads
`config[namespace][key]` verbatim, unvalidated, returning `undefined` when
the namespace or the key is absent; there is no root namespace (the
implementation is not part of this repository, only its declaration). -/
def getConfigValue (config : List (String × ConfigValue)) (ns key : String) :
    Option ConfigValue :=
  match lookupConf config ns with
  | some (ConfigValue.obj entries) => lookupConf entries key
  | _ => none

/-- Claim C6: `getConfigValue` returns a value exactly when the namespace is
present as an object and the key is present inside it, and then returns the
stored value verbatim; for every (namespace, key) pair not present in the
configuration it returns `undefined`, and when the empty-string namespace is
not a key of the configuration document, `getConfigValue("", key)` returns
`undefined` for every key — root-level values are unreachable through this
accessor (a root-level binding that is not an object also yields
`undefined` for every key under it). -/
theorem c6_getConfigValue_namespaced
    (config : List (String × ConfigValue)) (ns key : String) :
    (∀ v, getConfigValue config ns key = some v ↔
        ∃ entries, lookupConf config ns = some (ConfigValue.obj entries)
          ∧ lookupConf entries key = some v)
      ∧ (lookupConf config "" = none → getConfigValue config "" key = none)
      ∧ (∀ s, lookupConf config ns = some (ConfigValue.str s) →
          getConfigValue config ns key = none) := by
  refine ⟨?_, ?_, ?_⟩
  · intro v
    constructor
    · intro h
      unfold getConfigValue at h
      cases hns : lookupConf config ns with
      | none => rw [hns] at h; exact Option.noConfusion h
      | some cv =>
        rw [hns] at h
        cases cv with
        | str s => exact Option.noConfusion h
        | num n => exact Option.noConfusion h
        | obj entries => exact ⟨entries, rfl, h⟩
    · intro ⟨entries, hns, hkey⟩
      unfold getConfigValue
      rw [hns]
      exact hkey
  · intro h
    unfold getConfigValue
    rw [h]
  · intro s h
    unfold getConfigValue
    rw [h]

/-- The configuration document from the `getConfigValue` doc example in
`ModuleApi.d.ts`: a root-level value and a namespaced object. -/
def exampleConfig : List (String × ConfigValue) :=
  [("inaccessible_root_level_config", ConfigValue.str "hello world"),
   ("org.example.my_module_namespace", ConfigValue.obj [("my_key", ConfigValue.num 42)])]

theorem c6_getConfigValue_namespaced_witness :
    lookupConf exampleConfig "" = none
      ∧ getConfigValue exampleConfig "" "inaccessible_root_level_config" = none
      ∧ lookupConf exampleConfig "inaccessible_root_level_config"
          = some (ConfigValue.str "hello world")
      ∧ getConfigValue exampleConfig "inaccessible_root_level_config" "my_key" = none
      ∧ getConfigValue exampleConfig "org.example.my_module_namespace" "my_key"
          = some (ConfigValue.num 42) :=
  ⟨rfl,
   (c6_getConfigValue_namespaced exampleConfig ""
      "inaccessible_root_level_config").2.1 rfl,
   rfl,
   (c6_getConfigValue_namespaced exampleConfig "inaccessible_root_level_config"
      "my_key").2.2 "hello world" rfl,
   rfl⟩

/-- Modelled from the spec: an app is opaque to this layer beyond an
identifier. -/
abbrev App := String

/-- Modelled from the spec: `Container` is an enumerated placement slot
("top", "right", "center") within a room's UI (the `Container` type's
source file is not part of this repository). -/
inductive Container where
  | top
  | right
  | center
deriving DecidableEq

/-- Modelled from the spec: the App/Container Registry's state — for each
(room, app) pair, the container the app currently occupies, if any. -/
def AppContainerState := List ((String × App) × Container)

/-- The container an app occupies in a room, if any (first match wins; the
mutator keeps at most one entry per (room, app) pair). -/
def lookupContainer : AppContainerState → String → App → Option Container
  | [], _, _ => none
  | ((room, a), c) :: rest, roomId, app =>
    if room = roomId ∧ a = app then some c else lookupContainer rest roomId app

/-- Modelled from the spec: `isAppInContainer(app, container, roomId)` is a
pure membership predicate on the registry state. -/
def isAppInContainer (app : App) (container : Container) (roomId : String)
    (st : AppContainerState) : Bool :=
  decide (lookupContainer st roomId app = some container)

/-- Modelled from the spec: `moveAppToContainer(app, container, roomId)`
reassigns the app's container slot for one room, implicitly removing the
app from any prior container in that room; moving an app to the container
it already occupies is a no-op with no observable side effect, so the state
is returned unchanged in that case. -/
def moveAppToContainer (app : App) (container : Container) (roomId : String)
    (st : AppContainerState) : AppContainerState :=
  if lookupContainer st roomId app = some container then st
  else
    ((roomId, app), container) ::
      st.filter (fun e => !(decide (e.1.1 = roomId ∧ e.1.2 = app)))

/-- Modelled from the spec: `getApps(roomId)` returns the ordered sequence of
apps currently associated with the room (empty if none). -/
def getApps (roomId : String) (st : AppContainerState) : List App :=
  (st.filter (fun e => decide (e.1.1 = roomId))).map (fun e => e.1.2)

theorem lookupContainer_move (app : App) (container : Container) (roomId : String)
    (st : AppContainerState) :
    lookupContainer (moveAppToContainer app container roomId st) roomId app
      = some container := by
  unfold moveAppToContainer
  split
  · assumption
  · simp [lookupContainer]

/-- Claim C2: immediately after `moveAppToContainer(app, C, room)`,
`isAppInContainer(app, C, room)` is true and `isAppInContainer(app, C2,
room)` is false for every other container C2 (in particular for every
container the app previously occupied); moreover in every registry state an
app occupies at most one container per room, so the mutator preserves this
uniqueness invariant. -/
theorem c2_moveAppToContainer_unique_membership
    (st : AppContainerState) (app : App) (c c2 : Container) (roomId : String)
    (h : c2 ≠ c) :
    isAppInContainer app c roomId (moveAppToContainer app c roomId st) = true
      ∧ isAppInContainer app c2 roomId (moveAppToContainer app c roomId st) = false
      ∧ ∀ (st2 : AppContainerState) (c3 c4 : Container),
          isAppInContainer app c3 roomId st2 = true →
          isAppInContainer app c4 roomId st2 = true → c3 = c4 := by
  refine ⟨?_, ?_, ?_⟩
  · simp [isAppInContainer, lookupContainer_move]
  · simp [isAppInContainer, lookupContainer_move]
    exact fun hc => absurd hc.symm h
  · intro st2 c3 c4 h3 h4
    simp only [isAppInContainer, decide_eq_true_eq] at h3 h4
    rw [h3] at h4
    exact (Option.some.injEq _ _ ▸ h4).symm ▸ rfl

theorem c2_moveAppToContainer_unique_membership_witness :
    Container.right ≠ Container.top
      ∧ (isAppInContainer "widget1" Container.top "!room:example.org"
            (moveAppToContainer "widget1" Container.top "!room:example.org"
              [(("!room:example.org", "widget1"), Container.right)]) = true
        ∧ isAppInContainer "widget1" Container.right "!room:example.org"
            (moveAppToContainer "widget1" Container.top "!room:example.org"
              [(("!room:example.org", "widget1"), Container.right)]) = false
        ∧ ∀ (st2 : AppContainerState) (c3 c4 : Container),
            isAppInContainer "widget1" c3 "!room:example.org" st2 = true →
            isAppInContainer "widget1" c4 "!room:example.org" st2 = true → c3 = c4) :=
  ⟨by decide,
   c2_moveAppToContainer_unique_membership
     [(("!room:example.org", "widget1"), Container.right)]
     "widget1" Container.top Container.right "!room:example.org" (by decide)⟩

theorem moveAppToContainer_noop (app : App) (container : Container)
    (roomId : String) (st : AppContainerState)
    (h : lookupContainer st roomId app = some container) :
    moveAppToContainer app container roomId st = st := by
  simp [moveAppToContainer, h]

theorem moveAppToContainer_idem (app : App) (container : Container)
    (roomId : String) (st : AppContainerState) :
    moveAppToContainer app container roomId
        (moveAppToContainer app container roomId st)
      = moveAppToContainer app container roomId st :=
  moveAppToContainer_noop app container roomId _
    (lookupContainer_move app container roomId st)

/-- Claim C5: calling `moveAppToContainer(app, C, room)` twice in a row
produces the same observable registry state as calling it once — `getApps`
agrees on every room and `isAppInContainer` agrees on every (app, container,
room) triple; and moving an app to the container it already occupies is a
no-op with no observable side effect — the registry state is returned
unchanged outright, so every observation (including the order of `getApps`)
is untouched. -/
theorem c5_moveAppToContainer_idempotent
    (st : AppContainerState) (app : App) (container : Container) (roomId : String) :
    (∀ r2, getApps r2 (moveAppToContainer app container roomId
        (moveAppToContainer app container roomId st))
      = getApps r2 (moveAppToContainer app container roomId st))
    ∧ (∀ (a2 : App) (c2 : Container) (r2 : String),
        isAppInContainer a2 c2 r2 (moveAppToContainer app container roomId
            (moveAppToContainer app container roomId st))
          = isAppInContainer a2 c2 r2 (moveAppToContainer app container roomId st))
    ∧ (lookupContainer st roomId app = some container →
        moveAppToContainer app container roomId st = st) := by
  refine ⟨?_, ?_, ?_⟩
  · intro r2
    rw [moveAppToContainer_idem]
  · intro a2 c2 r2
    rw [moveAppToContainer_idem]
  · exact moveAppToContainer_noop app container roomId st

/-- A registry state where "a1" already occupies the top container of room
"r" and another app "a2" sits before it in the room's app order. -/
def exampleAppState : AppContainerState :=
  [(("r", "a2"), Container.top), (("r", "a1"), Container.top)]

theorem c5_moveAppToContainer_idempotent_witness :
    lookupContainer exampleAppState "r" "a1" = some Container.top
      ∧ moveAppToContainer "a1" Container.top "r" exampleAppState = exampleAppState
      ∧ getApps "r" (moveAppToContainer "a1" Container.top "r" exampleAppState)
          = ["a2", "a1"] :=
  ⟨by decide,
   (c5_moveAppToContainer_idempotent exampleAppState "a1" Container.top "r").2.2
     (by decide),
   by decide⟩

/-- Modelled from the spec: the dialog options object; the spec exposes a
title and treats further presentation options as opaque (the
`ModuleUiDialogOptions` source file is not part of this repository). -/
structure ModuleUiDialogOptions where
  title : String
deriving DecidableEq

/-- From `ModuleApi.d.ts` (`openDialog`'s declared return type): the result
object is `{ didOkOrSubmit: boolean; model: M }` — note that `model` is
annotated with type `M`, with no `undefined` alternative. -/
structure DialogResultDecl (M : Type) where
  didOkOrSubmit : Bool
  model : M
deriving DecidableEq

/-- Follows the spec's words (§3 DialogResult): `{ didOkOrSubmit: boolean,
model: M | undefined }`; stated for comparison with the declared result type
`DialogResultDecl`. -/
structure DialogResult (M : Type) where
  didOkOrSubmit : Bool
  model : Option M
deriving DecidableEq

/-- Modelled from the spec: `openDialog` accepts a bare title string as sugar
for a full options object. -/
def initialOptions : String ⊕ ModuleUiDialogOptions → ModuleUiDialogOptions
  | .inl title => { title := title }
  | .inr opts => opts

/-- Modelled from the spec: the interactions a DialogSession can receive —
the dialog body may mutate its own options post-open via `setOptions`, and
the user either submits (producing a model) or closes the dialog. -/
inductive DialogEvent (M : Type) where
  | setOptions (opts : ModuleUiDialogOptions)
  | submit (m : M)
  | close
deriving DecidableEq

/-- Modelled from the spec: a DialogSession holds a mutable options slot and
a pending result; it transitions to resolved exactly once. -/
structure DialogSessionState (M : Type) where
  options : ModuleUiDialogOptions
  result : Option (DialogResult M)
deriving DecidableEq

/-- Modelled from the spec: one step of a DialogSession. Submitting resolves
to `{didOkOrSubmit: true, model: m}`; closing resolves to `{didOkOrSubmit:
false, model: undefined}`; the session is never reused, so every event after
resolution (including a late `setOptions`) is a no-op. -/
def stepDialog {M : Type} (st : DialogSessionState M) : DialogEvent M → DialogSessionState M
  | .setOptions o => if st.result.isSome then st else { st with options := o }
  | .submit m => if st.result.isSome then st
      else { st with result := some { didOkOrSubmit := true, model := some m } }
  | .close => if st.result.isSome then st
      else { st with result := some { didOkOrSubmit := false, model := none } }

/-- Modelled from the spec: `openDialog` creates a fresh session from the
initial title-or-options and plays out a user-interaction trace; the
session's `result` is the value the returned promise resolves to, `none`
while still pending. -/
def openDialog {M : Type} (initialTitleOrOptions : String ⊕ ModuleUiDialogOptions)
    (evs : List (DialogEvent M)) : DialogSessionState M :=
  evs.foldl stepDialog { options := initialOptions initialTitleOrOptions, result := none }

/-- Whether an event resolves the session. -/
def isTerminalEvent {M : Type} : DialogEvent M → Bool
  | .setOptions _ => false
  | .submit _ => true
  | .close => true

theorem stepDialog_resolved {M : Type} (st : DialogSessionState M)
    (h : st.result.isSome = true) (e : DialogEvent M) : stepDialog st e = st := by
  cases e <;> simp [stepDialog, h]

theorem foldl_stepDialog_resolved {M : Type} (st : DialogSessionState M)
    (h : st.result.isSome = true) (evs : List (DialogEvent M)) :
    evs.foldl stepDialog st = st := by
  induction evs with
  | nil => rfl
  | cons e rest ih => rw [List.foldl_cons, stepDialog_resolved st h e, ih]

theorem foldl_stepDialog_pending {M : Type} (pre : List (DialogEvent M)) :
    ∀ (st : DialogSessionState M), st.result = none →
      (∀ e ∈ pre, isTerminalEvent e = false) →
      (pre.foldl stepDialog st).result = none := by
  induction pre with
  | nil => intro st h _; exact h
  | cons e rest ih =>
    intro st h hpre
    cases e with
    | setOptions o =>
      rw [List.foldl_cons]
      exact ih _ (by simp [stepDialog, h]) (fun e2 he => hpre e2 (List.mem_cons_of_mem _ he))
    | submit m => exact absurd (hpre _ (List.mem_cons_self _ _)) (by simp [isTerminalEvent])
    | close => exact absurd (hpre _ (List.mem_cons_self _ _)) (by simp [isTerminalEvent])

/-- Claim C1 fails as stated on the declared type: the claim asserts the
result's `model` component has type `M | undefined`, but `openDialog`'s
declared return type in `ModuleApi.d.ts` annotates `model` with type `M`
alone. Concretely, at `M := Empty` the dismissal result `{didOkOrSubmit:
false, model: undefined}` demanded by the claim is a value of the spec's
result type but the declared result type has no value at all, so the
dismissal result is not representable in the declared type. -/
theorem c1_counterexample :
    ({ didOkOrSubmit := false, model := none } : DialogResult Empty).model = none
      ∧ ¬ Nonempty (DialogResultDecl Empty) :=
  ⟨rfl, fun ⟨r⟩ => r.model.elim⟩

/-- Claim C1 (amended): at runtime, a dialog submitted with a
dialog-produced model `m` resolves to `{didOkOrSubmit: true, model: m}`, and
a dialog dismissed without submitting resolves to `{didOkOrSubmit: false,
model: undefined}` — the `model` component is `undefined` exactly on
dismissal; however, the declared result type annotates `model` with type `M`
rather than `M | undefined`, so the `undefined` on dismissal is a runtime
convention not captured by the declared type. The runtime behaviour is
stated over the session machine: for any interaction trace whose first
terminal event is a submit (resp. close), the session resolves to the
corresponding result, unaffected by later events. -/
theorem c1_openDialog_result_amended {M : Type}
    (initialTitleOrOptions : String ⊕ ModuleUiDialogOptions)
    (pre post : List (DialogEvent M)) (m : M)
    (hpre : ∀ e ∈ pre, isTerminalEvent e = false) :
    (openDialog initialTitleOrOptions (pre ++ DialogEvent.submit m :: post)).result
        = some { didOkOrSubmit := true, model := some m }
      ∧ (openDialog initialTitleOrOptions (pre ++ DialogEvent.close :: post)).result
        = some { didOkOrSubmit := false, model := none } := by
  constructor
  · unfold openDialog
    rw [List.foldl_append, List.foldl_cons]
    have hnone := foldl_stepDialog_pending pre
      { options := initialOptions initialTitleOrOptions, result := none } rfl hpre
    rw [stepDialog, if_neg (by simp [hnone])]
    rw [foldl_stepDialog_resolved _ (by simp) post]
  · unfold openDialog
    rw [List.foldl_append, List.foldl_cons]
    have hnone := foldl_stepDialog_pending pre
      { options := initialOptions initialTitleOrOptions, result := none } rfl hpre
    rw [stepDialog, if_neg (by simp [hnone])]
    rw [foldl_stepDialog_resolved _ (by simp) post]

theorem c1_openDialog_result_amended_witness :
    (∀ e ∈ [DialogEvent.setOptions (M := Nat) { title := "t2" }],
        isTerminalEvent e = false)
      ∧ ((openDialog (Sum.inl "t")
            ([DialogEvent.setOptions { title := "t2" }]
              ++ DialogEvent.submit 1 :: [DialogEvent.close])).result
          = some { didOkOrSubmit := true, model := some 1 }
        ∧ (openDialog (M := Nat) (Sum.inl "t")
            ([DialogEvent.setOptions { title := "t2" }]
              ++ DialogEvent.close :: [DialogEvent.close])).result
          = some { didOkOrSubmit := false, model := none }) :=
  ⟨by decide,
   c1_openDialog_result_amended (Sum.inl "t")
     [DialogEvent.setOptions { title := "t2" }] [DialogEvent.close] 1 (by decide)⟩

/-- From `WrapperLifecycle.d.ts`: `WrapperOpts = { Wrapper:
ComponentType<PropsWithChildren<{}>> }` — the declared `Wrapper` field is a
component reference with no `null` alternative. The React component type is
abstracted as a type parameter. -/
structure WrapperOpts (Comp : Type) where
  Wrapper : Comp

/-- Follows the spec's words (§3 WrapperOpts): a mutable output slot holding
a UI component reference or null; stated for comparison with the declared
`WrapperOpts`. -/
structure WrapperOptsNullable (Comp : Type) where
  Wrapper : Option Comp

/-- From `WrapperLifecycle.d.ts`: `WrapperListener = (opts: WrapperOpts) =>
void`; the listener's mutation of the shared opts reference is modelled as
returning the updated opts value. -/
def WrapperListener (Comp : Type) := WrapperOpts Comp → WrapperOpts Comp

/-- Modelled from the spec: the host invokes all registered `Wrapper`
listeners synchronously, in registration order, each receiving the same
mutable opts, and reads the final value after all listeners have run (the
Lifecycle Bus implementation is not part of this repository). -/
def runWrapperListeners {Comp : Type} (init : WrapperOpts Comp)
    (listeners : List (WrapperListener Comp)) : WrapperOpts Comp :=
  listeners.foldl (fun opts f => f opts) init

/-- Claim C8: when Wrapper lifecycle listeners run in registration order on
the shared opts slot and the last-registered listener sets `Wrapper = W2`,
the host observes `W2` as the final value of the slot, regardless of what
any earlier listener set (last writer wins on the single slot). -/
theorem c8_last_wrapper_listener_wins {Comp : Type} (init : WrapperOpts Comp)
    (listeners : List (WrapperListener Comp)) (f2 : WrapperListener Comp) (W2 : Comp)
    (h : ∀ opts, (f2 opts).Wrapper = W2) :
    (runWrapperListeners init (listeners ++ [f2])).Wrapper = W2 := by
  unfold runWrapperListeners
  rw [List.foldl_append, List.foldl_cons, List.foldl_nil]
  exact h _

theorem c8_last_wrapper_listener_wins_witness :
    (∀ opts : WrapperOpts String, ((fun _ => ⟨"W2"⟩ : WrapperListener String) opts).Wrapper = "W2")
      ∧ (runWrapperListeners (⟨"HostDefault"⟩ : WrapperOpts String)
          ([fun _ => ⟨"W1"⟩] ++ [fun _ => ⟨"W2"⟩])).Wrapper = "W2" :=
  ⟨fun _ => rfl,
   c8_last_wrapper_listener_wins ⟨"HostDefault"⟩ [fun _ => ⟨"W1"⟩]
     (fun _ => ⟨"W2"⟩) "W2" (fun _ => rfl)⟩

/-- Claim C9 fails as stated on the declared type: the claim asserts `null`
is an admissible value of the `Wrapper` field, but `WrapperLifecycle.d.ts`
declares `Wrapper: ComponentType<PropsWithChildren<{}>>` with no `null`
alternative. Concretely, at the component type `Empty` the spec's nullable
slot has the value `{Wrapper: null}` while the declared `WrapperOpts` has no
value at all — the "no module supplies a wrapper" state is not representable
in the declared type. -/
theorem c9_counterexample :
    ({ Wrapper := none } : WrapperOptsNullable Empty).Wrapper = none
      ∧ ¬ Nonempty (WrapperOpts Empty) :=
  ⟨rfl, fun ⟨opts⟩ => opts.Wrapper.elim⟩

/-- Claim C9 (amended): in every `WrapperOpts` value passed to Wrapper
lifecycle subscribers the `Wrapper` slot holds a UI component reference —
the declared type does not admit `null`, so viewed in the nullable value
space neither a subscriber nor the host (reading the final value after all
listeners ran) ever observes `null` through this type; a host with no module
wrapper must supply some component value (e.g. a pass-through wrapper)
rather than `null`. -/
theorem c9_wrapper_slot_not_nullable_amended {Comp : Type} (opts : WrapperOpts Comp)
    (listeners : List (WrapperListener Comp)) :
    (some opts.Wrapper : Option Comp) ≠ none
      ∧ (some (runWrapperListeners opts listeners).Wrapper : Option Comp) ≠ none :=
  ⟨Option.some_ne_none _, Option.some_ne_none _⟩

/-- From `ModuleApi.d.ts` (`openDialog`'s extra-props parameter, typed
`Omit<P, keyof DialogProps>`): TypeScript's `Omit<P, K>` keeps exactly the
keys of `P` that are not in `K`; modelled on the key lists of the two object
types. -/
def omitKeys (pKeys dialogPropsKeys : List String) : List String :=
  pKeys.filter (fun k => !(dialogPropsKeys.contains k))

/-- A props object: a finite list of (key, value) bindings with unique keys
in the source language; first match wins on lookup. -/
def lookupProp {V : Type} : List (String × V) → String → Option V
  | [], _ => none
  | (n, v) :: rest, key => if n = key then some v else lookupProp rest key

/-- Modelled from the spec: the props given to the dialog body merge the
common DialogProps contract with the caller's extra props; a key bound in
the extra props would take precedence over the broker's binding. -/
def mergeProps {V : Type} (dialogProps extraProps : List (String × V)) :
    String → Option V :=
  fun key =>
    match lookupProp extraProps key with
    | some v => some v
    | none => lookupProp dialogProps key

theorem lookupProp_mem_keys {V : Type} (ps : List (String × V)) (key : String)
    (v : V) (h : lookupProp ps key = some v) : key ∈ ps.map Prod.fst := by
  induction ps with
  | nil => exact Option.noConfusion h
  | cons hd rest ih =>
    obtain ⟨n, v2⟩ := hd
    by_cases hn : n = key
    · simp [hn]
    · simp only [lookupProp, if_neg hn] at h
      simp [ih h]

theorem omitKeys_not_dialog_key (pKeys dialogPropsKeys : List String) (k : String)
    (hk : k ∈ omitKeys pKeys dialogPropsKeys) : k ∉ dialogPropsKeys := by
  simp only [omitKeys, List.mem_filter, Bool.not_eq_eq_eq_not, Bool.not_true] at hk
  simpa using hk.2

/-- Claim C10: `openDialog`'s optional extra-props argument is typed
`Omit<P, keyof DialogProps>`, so no key of the common DialogProps contract
can occur in it — every key of the omitted type is outside DialogProps'
keys, and therefore caller-supplied extra props can never replace or shadow
a broker-supplied DialogProps member (such as the `setOptions` callback) in
the props merged into the dialog body: on every DialogProps key the merged
props agree with the broker's bindings. -/
theorem c10_omit_protects_dialog_props {V : Type} (pKeys dialogPropsKeys : List String)
    (dialogProps extraProps : List (String × V))
    (hextra : ∀ k ∈ extraProps.map Prod.fst, k ∈ omitKeys pKeys dialogPropsKeys) :
    (∀ k ∈ omitKeys pKeys dialogPropsKeys, k ∉ dialogPropsKeys)
      ∧ ∀ k ∈ dialogPropsKeys, mergeProps dialogProps extraProps k = lookupProp dialogProps k := by
  refine ⟨fun k hk => omitKeys_not_dialog_key pKeys dialogPropsKeys k hk, ?_⟩
  intro k hk
  cases he : lookupProp extraProps k with
  | none => simp [mergeProps, he]
  | some v =>
    have hmem := lookupProp_mem_keys extraProps k v he
    exact absurd hk (omitKeys_not_dialog_key pKeys dialogPropsKeys k (hextra k hmem))

theorem c10_omit_protects_dialog_props_witness :
    (∀ k ∈ ([("extra1", "custom")] : List (String × String)).map Prod.fst,
        k ∈ omitKeys ["setOptions", "extra1"] ["setOptions"])
      ∧ ((∀ k ∈ omitKeys ["setOptions", "extra1"] ["setOptions"], k ∉ ["setOptions"])
        ∧ ∀ k ∈ ["setOptions"],
            mergeProps [("setOptions", "brokerCallback")] [("extra1", "custom")] k
              = lookupProp [("setOptions", "brokerCallback")] k) :=
  ⟨by decide,
   c10_omit_protects_dialog_props ["setOptions", "extra1"] ["setOptions"]
     [("setOptions", "brokerCallback")] [("extra1", "custom")] (by decide)⟩

theorem c9_wrapper_slot_not_nullable_amended_witness :
    (some (⟨"PassThrough"⟩ : WrapperOpts String).Wrapper : Option String) ≠ none
      ∧ (some (runWrapperListeners (⟨"PassThrough"⟩ : WrapperOpts String)
          []).Wrapper : Option String) ≠ none :=
  c9_wrapper_slot_not_nullable_amended ⟨"PassThrough"⟩ []
